import Mathlib

/-!
Verification of the VESC dashboard firmware core (src/src/main.cpp):
the frame codec (crc16, sendVESCPacket, notifyCallback), the telemetry
decoder (parseVESCResponse) and the connection-lifecycle state machine
(the global flags mutated by connectToVESC, MyClientCallbacks::onDisconnect
and loop).  All functions below are shallow embeddings of the C++ source;
bytes are modelled as Nat with explicit bounds where overflow matters.
-/

/-! ## Wire protocol constants (main.cpp lines 14-67) -/

def VESC_PACKET_START : Nat := 2
def VESC_PACKET_STOP : Nat := 3
def COMM_GET_VALUES : Nat := 4
def COMM_ALIVE : Nat := 30
def VESC_DATA_REFRESH_MS : Nat := 300
def VESC_DATA_STALE_TIMEOUT_MS : Nat := 5000
def RECONNECT_INTERVAL_MS : Nat := 5000
def CONNECTION_GRACE_PERIOD_MS : Nat := 10000

/-! ## CRC16 (main.cpp lines 99-112)

`uint16_t crc16(uint8_t *data, uint32_t len)`: initial value 0; for each
byte, xor it into the top of the 16-bit register, then 8 conditional
shift-and-xor rounds with polynomial 0x1021.  `uint16_t` truncation is
modelled by `% 65536`. -/

def crc16Round (crc : Nat) : Nat :=
  if crc &&& 0x8000 ≠ 0 then ((crc <<< 1) ^^^ 0x1021) % 65536
  else (crc <<< 1) % 65536

def crc16Rounds : Nat → Nat → Nat
  | 0, crc => crc
  | k + 1, crc => crc16Rounds k (crc16Round crc)

def crc16Byte (crc b : Nat) : Nat :=
  crc16Rounds 8 (crc ^^^ ((b % 256) <<< 8))

def crc16 (data : List Nat) : Nat :=
  data.foldl crc16Byte 0

/-! ## Outgoing packet construction (sendVESCPacket, main.cpp lines 115-130)

The 6-byte packet built by `sendVESCPacket`:
`packet = [START, 1, command, crc >> 8 & 0xFF, crc & 0xFF, STOP]` with
`crc = crc16(&packet[2], 1)`, i.e. the CRC over the 1-byte payload only. -/

def sendVESCPacket (command : Nat) : List Nat :=
  [VESC_PACKET_START, 1, command,
   (crc16 [command] >>> 8) &&& 0xFF, crc16 [command] &&& 0xFF,
   VESC_PACKET_STOP]

/-- General wire frame for an arbitrary payload, following the wire format
implicit in the parser and generalizing `sendVESCPacket`:
`[START, LEN] ++ payload ++ [CRC_hi, CRC_lo, STOP]` with the CRC16 computed
over the payload only. -/
def encodeFrame (payload : List Nat) : List Nat :=
  [VESC_PACKET_START, payload.length] ++ payload ++
    [(crc16 payload >>> 8) &&& 0xFF, crc16 payload &&& 0xFF,
     VESC_PACKET_STOP]

/-! ## Frame extraction (notifyCallback, main.cpp lines 209-255)

The `while (rxBuffer.size() >= 6)` scan loop: discard leading non-START
bytes; if fewer than 2 bytes remain stop; read the length byte, compute
`total = 2 + LEN + 3`; if the buffer is shorter than `total` stop and wait;
if the byte at `total - 1` is STOP extract `total` bytes as a packet and
hand them to the parser, else drop the leading START byte and rescan.
Each iteration that continues removes at least one byte, so a fuel of
`buf.length` is always sufficient; `processPackets` fixes that fuel. -/

def processPacketsFuel : Nat → List Nat → List (List Nat) × List Nat
  | 0, buf => ([], buf)
  | fuel + 1, buf =>
    if buf.length < 6 then ([], buf)
    else
      let buf1 := buf.dropWhile (fun b => b != VESC_PACKET_START)
      if buf1.length = 0 then ([], [])
      else if buf1.length < 2 then ([], buf1)
      else
        let total := 2 + buf1.getD 1 0 + 3
        if buf1.length < total then ([], buf1)
        else if buf1.getD (total - 1) 0 = VESC_PACKET_STOP then
          (buf1.take total :: (processPacketsFuel fuel (buf1.drop total)).1,
           (processPacketsFuel fuel (buf1.drop total)).2)
        else processPacketsFuel fuel (buf1.drop 1)

/-- The packets extracted (in order) and the residual buffer produced by one
run of the `notifyCallback` scan loop over `buf`. -/
def processPackets (buf : List Nat) : List (List Nat) × List Nat :=
  processPacketsFuel buf.length buf

/-- One `notifyCallback` invocation: append the notification bytes to the
accumulated `rxBuffer`, run the scan loop, and accumulate the extracted
packets (the code hands each one to `parseVESCResponse` immediately; we
keep the trace). -/
def notifyCallback (st : List (List Nat) × List Nat) (data : List Nat) :
    List (List Nat) × List Nat :=
  ((st.1 ++ (processPackets (st.2 ++ data)).1),
   (processPackets (st.2 ++ data)).2)

/-- Feed a sequence of notification chunks through `notifyCallback`,
starting from an empty buffer, collecting every packet extracted. -/
def feedChunks (chunks : List (List Nat)) : List (List Nat) × List Nat :=
  chunks.foldl notifyCallback ([], [])

/-- The payload slice of an extracted packet: bytes `[2, 2 + LEN)` where
`LEN` is the packet's length byte. -/
def payloadOf (pkt : List Nat) : List Nat :=
  (pkt.drop 2).take (pkt.getD 1 0)

/-! ## Telemetry decoder (parseVESCResponse, main.cpp lines 133-206)

The parser receives the full extracted packet (start byte .. stop byte).
It mutates the globals `vescVoltage`, `vescFetTemp`, `lastVoltageUpdate`
only on the path `data[1] >= 50 && length >= data[1] + 5 && length >= 31`:
`vescVoltage = int16(data[29] << 8 | data[30]) / 10.0`,
`vescFetTemp = int16(data[3] << 8 | data[4]) / 10.0`,
`lastVoltageUpdate = millis()`.  The COMM_ALIVE branch and every other
branch only print.  Temperatures and voltage are kept as the raw signed
16-bit value; division by 10.0 is exposed through `voltageOf`. -/

def toInt16 (hi lo : Nat) : Int :=
  let v := ((hi % 256) <<< 8) ||| (lo % 256)
  if v < 32768 then (v : Int) else (v : Int) - 65536

structure Telem where
  vescVoltageRaw : Int
  vescFetTempRaw : Int
  lastVoltageUpdate : Nat
deriving DecidableEq, Repr

def parseVESCResponse (now : Nat) (t : Telem) (data : List Nat) : Telem :=
  if data.length < 6 then t
  else if data.getD 0 0 = VESC_PACKET_START then
    if 50 ≤ data.getD 1 0 ∧ data.getD 1 0 + 5 ≤ data.length then
      if 31 ≤ data.length then
        { vescVoltageRaw := toInt16 (data.getD 29 0) (data.getD 30 0),
          vescFetTempRaw := toInt16 (data.getD 3 0) (data.getD 4 0),
          lastVoltageUpdate := now }
      else t
    else t
  else t

/-- `vescVoltage` as the parser computes it: the raw value divided by 10. -/
def voltageOf (t : Telem) : ℚ :=
  (t.vescVoltageRaw : ℚ) / 10

/-- The exact path condition under which `parseVESCResponse` mutates the
telemetry globals (the "read values" shape). -/
def readValuesShape (d : List Nat) : Prop :=
  6 ≤ d.length ∧ d.getD 0 0 = VESC_PACKET_START ∧
    50 ≤ d.getD 1 0 ∧ d.getD 1 0 + 5 ≤ d.length ∧ 31 ≤ d.length

instance (d : List Nat) : Decidable (readValuesShape d) := by
  unfold readValuesShape; infer_instance

/-! ## Link state machine (main.cpp: globals, connectToVESC lines 277-393,
MyClientCallbacks::onDisconnect lines 263-273, loop lines 666-820)

The connection lifecycle lives in the globals `isConnected`,
`isReconnecting`, `lastReconnectAttempt`, `connectionStartTime`,
`lastVoltageUpdate`, `lastConnectedDeviceIndex`.  Each event below
transcribes one mutation site, including the branch guards of `loop`
(the reconnecting branch runs only while `isReconnecting`, the connected
branch only while `!isReconnecting && isConnected`). -/

structure LinkSt where
  isConnected : Bool
  isReconnecting : Bool
  lastReconnectAttempt : Nat
  connectionStartTime : Nat
  lastVoltageUpdate : Nat
  lastConnectedDeviceIndex : Int
deriving DecidableEq, Repr

/-- Process start: all flags false, timers zero, no remembered device. -/
def initLink : LinkSt :=
  { isConnected := false, isReconnecting := false, lastReconnectAttempt := 0,
    connectionStartTime := 0, lastVoltageUpdate := 0,
    lastConnectedDeviceIndex := -1 }

inductive LinkEvent where
  /-- Outcome of a user-initiated `connectToVESC` from the selection screen
  (`loop` else-branch, button C, lines 793-815). -/
  | connectResult (success : Bool) (deviceIndex : Nat) (now : Nat)
  /-- `MyClientCallbacks::onDisconnect` (lines 263-273). -/
  | disconnectCb (now : Nat)
  /-- The staleness check at the top of the connected branch of `loop`
  (lines 714-733). -/
  | staleCheck (now : Nat)
  /-- Button A in the reconnecting branch (lines 672-678). -/
  | cancelReconnect
  /-- Button B in the reconnecting branch (lines 680-683). -/
  | retryNow
  /-- One pass through the interval-gated reconnection attempt
  (lines 686-708); `inList` is whether the remembered device index is
  still valid, `success` the outcome of `connectToVESC`. -/
  | reconnectTick (now : Nat) (inList : Bool) (success : Bool)
  /-- Button A or C in the connected branch (lines 736-765). -/
  | userDisconnect
deriving DecidableEq, Repr

def stepEvent (s : LinkSt) (e : LinkEvent) : LinkSt :=
  match e with
  | .connectResult success deviceIndex now =>
    if !s.isReconnecting && !s.isConnected then
      if success then
        { s with isConnected := true, isReconnecting := false,
                 lastConnectedDeviceIndex := (deviceIndex : Int),
                 connectionStartTime := now, lastVoltageUpdate := now }
      else s
    else s
  | .disconnectCb now =>
    if s.isConnected then
      { s with isConnected := false, isReconnecting := true,
               lastReconnectAttempt := now }
    else s
  | .staleCheck now =>
    if !s.isReconnecting && s.isConnected then
      if CONNECTION_GRACE_PERIOD_MS < now - s.connectionStartTime ∧
         VESC_DATA_STALE_TIMEOUT_MS < now - s.lastVoltageUpdate then
        { s with isConnected := false, isReconnecting := true,
                 lastReconnectAttempt := now }
      else s
    else s
  | .cancelReconnect =>
    if s.isReconnecting then
      { s with isReconnecting := false, lastConnectedDeviceIndex := -1 }
    else s
  | .retryNow =>
    if s.isReconnecting then { s with lastReconnectAttempt := 0 } else s
  | .reconnectTick now inList success =>
    if s.isReconnecting then
      if RECONNECT_INTERVAL_MS < now - s.lastReconnectAttempt then
        if inList then
          if success then
            { s with isConnected := true, isReconnecting := false,
                     lastReconnectAttempt := now,
                     connectionStartTime := now, lastVoltageUpdate := now }
          else { s with lastReconnectAttempt := now }
        else { s with isReconnecting := false, lastReconnectAttempt := now }
      else s
    else s
  | .userDisconnect =>
    if !s.isReconnecting && s.isConnected then
      { s with isConnected := false, isReconnecting := false,
               lastConnectedDeviceIndex := -1 }
    else s

/-- The condition under which one pass of the reconnecting branch actually
attempts `connectToVESC` (line 686):
`millis() - lastReconnectAttempt > RECONNECT_INTERVAL_MS`. -/
def tickAttempts (s : LinkSt) (now : Nat) : Bool :=
  s.isReconnecting && decide (RECONNECT_INTERVAL_MS < now - s.lastReconnectAttempt)

/-! ## Helper lemmas about the CRC register -/

theorem crc16Round_lt (crc : Nat) : crc16Round crc < 65536 := by
  unfold crc16Round
  split <;> exact Nat.mod_lt _ (by norm_num)

theorem crc16Rounds_lt (k x : Nat) (hk : 1 ≤ k) : crc16Rounds k x < 65536 := by
  induction k generalizing x with
  | zero => omega
  | succ k ih =>
    rcases Nat.eq_or_lt_of_le hk with h | h
    · have hk0 : k = 0 := by omega
      subst hk0
      simpa [crc16Rounds] using crc16Round_lt x
    · have hk1 : 1 ≤ k := by omega
      simpa [crc16Rounds] using ih (crc16Round x) hk1

theorem crc16Byte_lt (crc b : Nat) : crc16Byte crc b < 65536 :=
  crc16Rounds_lt 8 _ (by norm_num)

theorem crc16_lt (data : List Nat) : crc16 data < 65536 := by
  unfold crc16
  cases data with
  | nil => norm_num
  | cons a l =>
    have h : ∀ (l : List Nat) (crc : Nat), crc < 65536 →
        l.foldl crc16Byte crc < 65536 := by
      intro l
      induction l with
      | nil => intro crc h; exact h
      | cons x xs ih => intro crc _; exact ih (crc16Byte crc x) (crc16Byte_lt crc x)
    simpa using h l (crc16Byte 0 a) (crc16Byte_lt 0 a)

/-! ## Helper lemmas about the scan loop -/

theorem processPacketsFuel_stall (fuel : Nat) (buf : List Nat)
    (h : buf.length < 6) : processPacketsFuel fuel buf = ([], buf) := by
  cases fuel with
  | zero => rfl
  | succ k =>
    simp only [processPacketsFuel]
    rw [if_pos h]

theorem processPackets_stall (buf : List Nat) (h : buf.length < 6) :
    processPackets buf = ([], buf) :=
  processPacketsFuel_stall _ _ h

theorem processPacketsFuel_congr (f1 : Nat) :
    ∀ (f2 : Nat) (buf : List Nat), buf.length ≤ f1 → buf.length ≤ f2 →
      processPacketsFuel f1 buf = processPacketsFuel f2 buf := by
  induction f1 with
  | zero =>
    intro f2 buf h1 _
    have hb : buf = [] := List.eq_nil_of_length_eq_zero (Nat.le_zero.mp h1)
    subst hb
    cases f2 <;> simp [processPacketsFuel]
  | succ k ih =>
    intro f2 buf h1 h2
    by_cases h6 : buf.length < 6
    · rw [processPacketsFuel_stall _ _ h6, processPacketsFuel_stall _ _ h6]
    · cases f2 with
      | zero => omega
      | succ m =>
        have hd : (buf.dropWhile (fun b => b != VESC_PACKET_START)).length ≤ buf.length :=
          (List.dropWhile_sublist _).length_le
        simp only [processPacketsFuel]
        rw [if_neg h6, if_neg h6]
        set L := buf.dropWhile (fun b => b != VESC_PACKET_START) with hL
        by_cases hz : L.length = 0
        · rw [if_pos hz, if_pos hz]
        · rw [if_neg hz, if_neg hz]
          by_cases h2' : L.length < 2
          · rw [if_pos h2', if_pos h2']
          · rw [if_neg h2', if_neg h2']
            by_cases hlt : L.length < 2 + L.getD 1 0 + 3
            · rw [if_pos hlt, if_pos hlt]
            · rw [if_neg hlt, if_neg hlt]
              by_cases hstop : L.getD (2 + L.getD 1 0 + 3 - 1) 0 = VESC_PACKET_STOP
              · rw [if_pos hstop, if_pos hstop]
                have hrec : processPacketsFuel k (L.drop (2 + L.getD 1 0 + 3)) =
                    processPacketsFuel m (L.drop (2 + L.getD 1 0 + 3)) := by
                  apply ih
                  · rw [List.length_drop]; omega
                  · rw [List.length_drop]; omega
                rw [hrec]
              · rw [if_neg hstop, if_neg hstop]
                apply ih
                · rw [List.length_drop]; omega
                · rw [List.length_drop]; omega

theorem processPackets_eq_fuel (buf : List Nat) (f : Nat) (hf : buf.length ≤ f) :
    processPackets buf = processPacketsFuel f buf :=
  processPacketsFuel_congr buf.length f buf (Nat.le_refl _) hf

theorem dropWhile_garbage (g l : List Nat)
    (hg : ∀ b ∈ g, b ≠ VESC_PACKET_START) :
    (g ++ VESC_PACKET_START :: l).dropWhile (fun b => b != VESC_PACKET_START) =
      VESC_PACKET_START :: l := by
  induction g with
  | nil => simp [List.dropWhile_cons]
  | cons a g ih =>
    have ha : a ≠ VESC_PACKET_START := hg a (by simp)
    simp only [List.cons_append, List.dropWhile_cons]
    rw [if_pos (by simpa using ha)]
    exact ih (fun b hb => hg b (by simp [hb]))

/-- One structurally complete candidate at the front of the buffer (after
any non-START garbage) is extracted whole, and scanning continues on the
remaining bytes.  The CRC bytes `c1, c2` are arbitrary: the loop never
inspects them. -/
theorem processPackets_packet (g p rest : List Nat) (n c1 c2 : Nat)
    (hg : ∀ b ∈ g, b ≠ VESC_PACKET_START) (hp : p.length = n) (hn : 1 ≤ n) :
    processPackets
        (g ++ ([VESC_PACKET_START, n] ++ p ++ [c1, c2, VESC_PACKET_STOP]) ++ rest) =
      (([VESC_PACKET_START, n] ++ p ++ [c1, c2, VESC_PACKET_STOP]) ::
         (processPackets rest).1,
       (processPackets rest).2) := by
  set pkt := [VESC_PACKET_START, n] ++ p ++ [c1, c2, VESC_PACKET_STOP] with hpkt
  have hpklen : pkt.length = n + 5 := by simp [hpkt, hp]
  have hblen : (g ++ pkt ++ rest).length = g.length + (n + 5) + rest.length := by
    simp [hpklen]; omega
  rw [processPackets_eq_fuel _ (g.length + (n + 4) + rest.length + 1) (by omega)]
  simp only [processPacketsFuel]
  rw [if_neg (by omega)]
  have hdw : (g ++ pkt ++ rest).dropWhile (fun b => b != VESC_PACKET_START) =
      pkt ++ rest := by
    have he : g ++ pkt ++ rest =
        g ++ VESC_PACKET_START :: (n :: (p ++ ([c1, c2, VESC_PACKET_STOP] ++ rest))) := by
      simp [hpkt]
    rw [he, dropWhile_garbage _ _ hg]
    simp [hpkt]
  rw [hdw]
  have hLlen : (pkt ++ rest).length = n + 5 + rest.length := by simp [hpklen]
  rw [if_neg (by omega), if_neg (by omega)]
  have hg1 : (pkt ++ rest).getD 1 0 = n := by
    have he : pkt ++ rest =
        VESC_PACKET_START :: n :: ((p ++ [c1, c2, VESC_PACKET_STOP]) ++ rest) := by
      simp [hpkt]
    rw [he]
    simp [List.getD_cons_succ, List.getD_cons_zero]
  rw [hg1]
  rw [if_neg (by omega)]
  have hstop : (pkt ++ rest).getD (2 + n + 3 - 1) 0 = VESC_PACKET_STOP := by
    have e1 : 2 + n + 3 - 1 = n + 4 := by omega
    rw [e1, List.getD_append _ _ _ _ (by omega)]
    have he : pkt = [VESC_PACKET_START, n] ++ (p ++ [c1, c2, VESC_PACKET_STOP]) := by
      simp [hpkt]
    rw [he, List.getD_append_right _ _ _ _ (by simp)]
    have e2 : n + 4 - ([VESC_PACKET_START, n] : List Nat).length = n + 2 := by
      simp
    rw [e2, List.getD_append_right _ _ _ _ (by omega)]
    have e3 : n + 2 - p.length = 2 := by omega
    rw [e3]
    rfl
  rw [if_pos hstop]
  have htake : (pkt ++ rest).take (2 + n + 3) = pkt := List.take_left' (by omega)
  have hdrop : (pkt ++ rest).drop (2 + n + 3) = rest := List.drop_left' (by omega)
  rw [htake, hdrop]
  rw [← processPackets_eq_fuel rest _ (by omega)]

/-- A strict prefix of a structurally complete candidate makes no progress:
the loop stalls waiting for the remaining bytes. -/
theorem processPackets_partial (q t p : List Nat) (n c1 c2 : Nat)
    (hp : p.length = n)
    (hq : q ++ t = [VESC_PACKET_START, n] ++ p ++ [c1, c2, VESC_PACKET_STOP])
    (ht : t ≠ []) :
    processPackets q = ([], q) := by
  have hqlen : q.length + t.length = n + 5 := by
    have h := congrArg List.length hq
    simp [hp] at h
    omega
  have htlen : 1 ≤ t.length := List.length_pos.mpr ht
  by_cases h6 : q.length < 6
  · exact processPackets_stall q h6
  · cases q with
    | nil => simp at h6
    | cons a q1 =>
      cases q1 with
      | nil => simp at h6
      | cons b q2 =>
        have hq' : a = VESC_PACKET_START ∧ b = n ∧
            q2 ++ t = p ++ [c1, c2, VESC_PACKET_STOP] := by
          simpa using hq
        obtain ⟨rfl, hbn, -⟩ := hq'
        subst hbn
        have h6' : ¬ (VESC_PACKET_START :: b :: q2).length < 6 := h6
        show processPacketsFuel (q2.length + 1 + 1) _ = _
        simp only [processPacketsFuel]
        rw [if_neg h6']
        have hdw : (VESC_PACKET_START :: b :: q2).dropWhile
            (fun x => x != VESC_PACKET_START) = VESC_PACKET_START :: b :: q2 := by
          simp [List.dropWhile_cons]
        rw [hdw]
        have hql : (VESC_PACKET_START :: b :: q2).length = q2.length + 2 := by simp
        rw [if_neg (by omega), if_neg (by omega)]
        have hg1 : (VESC_PACKET_START :: b :: q2).getD 1 0 = b := rfl
        rw [hg1]
        rw [if_pos (by simp at hqlen ⊢; omega)]

/-- Feeding a structurally complete candidate split into nonempty chunks:
every proper prefix stalls, the final chunk completes the packet, and the
accumulated trace gains exactly that packet. -/
theorem feedChunks_aux (p : List Nat) (n c1 c2 : Nat)
    (hp : p.length = n) (hn : 1 ≤ n) :
    ∀ (chunks : List (List Nat)) (fs : List (List Nat)) (b : List Nat),
      (∀ c ∈ chunks, c ≠ []) → chunks ≠ [] →
      b ++ chunks.flatten = [VESC_PACKET_START, n] ++ p ++ [c1, c2, VESC_PACKET_STOP] →
      chunks.foldl notifyCallback (fs, b) =
        (fs ++ [[VESC_PACKET_START, n] ++ p ++ [c1, c2, VESC_PACKET_STOP]], []) := by
  intro chunks
  induction chunks with
  | nil => intro fs b _ hne _; exact absurd rfl hne
  | cons c cs ih =>
    intro fs b hc _ hflat
    simp only [List.foldl_cons]
    cases cs with
    | nil =>
      have hbc : b ++ c = [VESC_PACKET_START, n] ++ p ++ [c1, c2, VESC_PACKET_STOP] := by
        simpa using hflat
      have hpk := processPackets_packet [] p [] n c1 c2 (by simp) hp hn
      rw [processPackets_stall [] (by simp)] at hpk
      simp only [List.append_nil, List.nil_append] at hpk
      simp only [List.foldl_nil, notifyCallback, hbc, hpk]
    | cons c' cs' =>
      have hstall : processPackets (b ++ c) = ([], b ++ c) := by
        apply processPackets_partial (b ++ c) ((c' :: cs').flatten) p n c1 c2 hp
        · rw [← hflat]; simp
        · have hc' : c' ≠ [] := hc c' (by simp)
          simp only [List.flatten_cons]
          intro hx
          rcases List.append_eq_nil.mp hx with ⟨h1, -⟩
          exact hc' h1
      have hstep : notifyCallback (fs, b) c = (fs, b ++ c) := by
        simp [notifyCallback, hstall]
      rw [hstep]
      apply ih (fs) (b ++ c) (fun x hx => hc x (by simp [hx])) (by simp)
      rw [← hflat]; simp

/-! ## Helper lemmas about the decoder -/

theorem parse_mutation (now : Nat) (t : Telem) (d : List Nat)
    (h : readValuesShape d) :
    parseVESCResponse now t d =
      { vescVoltageRaw := toInt16 (d.getD 29 0) (d.getD 30 0),
        vescFetTempRaw := toInt16 (d.getD 3 0) (d.getD 4 0),
        lastVoltageUpdate := now } := by
  obtain ⟨h6, h0, h50, h55, h31⟩ := h
  unfold parseVESCResponse
  rw [if_neg (by omega), if_pos h0, if_pos ⟨h50, h55⟩, if_pos h31]

theorem parse_no_mutation (now : Nat) (t : Telem) (d : List Nat)
    (h : ¬ readValuesShape d) :
    parseVESCResponse now t d = t := by
  unfold parseVESCResponse
  by_cases hA : d.length < 6
  · rw [if_pos hA]
  · rw [if_neg hA]
    by_cases hB : d.getD 0 0 = VESC_PACKET_START
    · rw [if_pos hB]
      by_cases hC : 50 ≤ d.getD 1 0 ∧ d.getD 1 0 + 5 ≤ d.length
      · rw [if_pos hC]
        by_cases hD : 31 ≤ d.length
        · exact absurd ⟨by omega, hB, hC.1, hC.2, hD⟩ h
        · rw [if_neg hD]
      · rw [if_neg hC]
    · rw [if_neg hB]

/-! ## Helper lemma for the flag invariant -/

theorem stepEvent_mutex (s : LinkSt) (e : LinkEvent)
    (h : (s.isConnected && s.isReconnecting) = false) :
    ((stepEvent s e).isConnected && (stepEvent s e).isReconnecting) = false := by
  cases e <;> simp only [stepEvent] <;> (repeat' split) <;>
    first
      | exact h
      | rfl
      | simp_all

/-- A complete well-formed frame standing alone in the buffer is extracted
as the single packet, leaving the buffer empty (payload nonempty, so the
frame has at least 6 bytes). -/
theorem processPackets_frame (payload : List Nat) (h1 : 1 ≤ payload.length) :
    processPackets (encodeFrame payload) = ([encodeFrame payload], []) := by
  have h2 := processPackets_packet [] payload [] payload.length
    ((crc16 payload >>> 8) &&& 0xFF) (crc16 payload &&& 0xFF)
    (by simp) rfl h1
  rw [processPackets_stall [] (by simp)] at h2
  simpa [encodeFrame] using h2

/-- Claim C4: for every command byte `c`, `sendVESCPacket c` is exactly the
6 bytes `[START = 0x02, 1, c, CRC_hi, CRC_lo, STOP = 0x03]`, where the CRC16
(CCITT, polynomial 0x1021, initial value 0, MSB-first per byte, no final
XOR — the function `crc16`) is computed only over the 1-byte payload `[c]`,
not over START or LEN, and fits in 16 bits. -/
theorem sendVESCPacket_layout (c : Nat) (hc : c < 256) :
    sendVESCPacket c =
      [VESC_PACKET_START, 1, c,
       crc16 [c] / 256, crc16 [c] % 256, VESC_PACKET_STOP] ∧
    (sendVESCPacket c).length = 6 ∧ crc16 [c] < 65536 := by
  have hlt : crc16 [c] < 65536 := crc16_lt [c]
  have h1 : crc16 [c] >>> 8 = crc16 [c] / 256 := by
    have := Nat.shiftRight_eq_div_pow (crc16 [c]) 8
    simpa using this
  have h2 : ∀ m : Nat, m &&& 0xFF = m % 256 := by
    intro m
    have := Nat.and_pow_two_sub_one_eq_mod m 8
    simpa using this
  refine ⟨?_, by simp [sendVESCPacket], hlt⟩
  unfold sendVESCPacket
  rw [h1, h2, h2]
  have h3 : crc16 [c] / 256 % 256 = crc16 [c] / 256 :=
    Nat.mod_eq_of_lt (by omega)
  rw [h3]

/-- Claim C4 witness: the layout at the concrete command byte
`COMM_GET_VALUES = 4`. -/
theorem sendVESCPacket_layout_witness :
    sendVESCPacket 4 =
      [VESC_PACKET_START, 1, 4,
       crc16 [4] / 256, crc16 [4] % 256, VESC_PACKET_STOP] ∧
    (sendVESCPacket 4).length = 6 ∧ crc16 [4] < 65536 :=
  sendVESCPacket_layout 4 (by norm_num)

/-- Claim C5: round-trip — feeding the 6 bytes built by `sendVESCPacket c`
into the frame extractor yields exactly one packet, whose payload slice is
the single byte `[c]`, and empties the buffer. -/
theorem roundtrip_command (c : Nat) (hc : c < 256) :
    (processPackets (sendVESCPacket c)).1 = [sendVESCPacket c] ∧
    (processPackets (sendVESCPacket c)).2 = [] ∧
    payloadOf (sendVESCPacket c) = [c] := by
  have hpk := processPackets_packet [] [c] [] 1
    ((crc16 [c] >>> 8) &&& 0xFF) (crc16 [c] &&& 0xFF)
    (by simp) (by simp) (by norm_num)
  rw [processPackets_stall [] (by simp)] at hpk
  have hmain : processPackets (sendVESCPacket c) = ([sendVESCPacket c], []) := by
    have he : sendVESCPacket c =
        [] ++ ([VESC_PACKET_START, 1] ++ [c] ++
          [(crc16 [c] >>> 8) &&& 0xFF, crc16 [c] &&& 0xFF, VESC_PACKET_STOP]) ++ [] := by
      simp [sendVESCPacket]
    rw [he, hpk]
    simp [sendVESCPacket]
  refine ⟨by rw [hmain], by rw [hmain], ?_⟩
  simp [payloadOf, sendVESCPacket, List.getD_cons_succ, List.getD_cons_zero]

/-- Claim C5 witness: round-trip at the concrete command byte 4. -/
theorem roundtrip_command_witness :
    (processPackets (sendVESCPacket 4)).1 = [sendVESCPacket 4] ∧
    (processPackets (sendVESCPacket 4)).2 = [] ∧
    payloadOf (sendVESCPacket 4) = [4] :=
  roundtrip_command 4 (by norm_num)

/-- Claim C1 counterexample: `sendVESCPacket 30` is the valid heartbeat
frame `[2, 1, 30, 243, 255, 3]`; flipping the lowest bit of its payload
byte (30 becomes 31) makes the stored CRC wrong (`crc16 [31] ≠ crc16 [30]`),
yet the scan loop still yields the corrupted candidate as one frame — not
zero frames as the claim requires, because `notifyCallback` never computes
a CRC over inbound data. -/
theorem corrupt_crc_still_yields :
    sendVESCPacket 30 = [2, 1, 30, 243, 255, 3] ∧
    crc16 [31] ≠ crc16 [30] ∧
    (processPackets [2, 1, 31, 243, 255, 3]).1 = [[2, 1, 31, 243, 255, 3]] := by
  decide

/-- Claim C1 (amended): the extractor yields a candidate to the decoder
after structural validation only (start byte, declared length, stop byte);
the CRC bytes `c1, c2` are never inspected, so a candidate whose payload
has any bit flipped is still yielded as exactly one frame, and a valid
frame appended afterwards is still yielded after it. -/
theorem feed_structural_only (n : Nat) (p q : List Nat) (c1 c2 : Nat)
    (hp : p.length = n) (hn : 1 ≤ n) (hq1 : 1 ≤ q.length) (hq2 : q.length < 256) :
    (processPackets
        (([VESC_PACKET_START, n] ++ p ++ [c1, c2, VESC_PACKET_STOP]) ++
          encodeFrame q)).1 =
      [[VESC_PACKET_START, n] ++ p ++ [c1, c2, VESC_PACKET_STOP],
       encodeFrame q] := by
  have h1 := processPackets_packet [] p (encodeFrame q) n c1 c2 (by simp) hp hn
  rw [processPackets_frame q hq1] at h1
  simp only [List.nil_append] at h1
  rw [h1]

/-- Claim C1 (amended) witness: a structurally valid candidate with payload
`[9]` and deliberately wrong CRC bytes `0, 0`, followed by the valid frame
for payload `[4]`: both are yielded. -/
theorem feed_structural_only_witness :
    (processPackets (([VESC_PACKET_START, 1] ++ [9] ++ [0, 0, VESC_PACKET_STOP]) ++
        encodeFrame [4])).1 =
      [[VESC_PACKET_START, 1] ++ [9] ++ [0, 0, VESC_PACKET_STOP], encodeFrame [4]] :=
  feed_structural_only 1 [9] [4] 0 0 rfl (by norm_num) (by decide) (by decide)

/-- Claim C2 counterexample: a CRC-valid frame whose payload has length 29
with payload bytes `[26:28) = 0x00C8` (here `[0, 200]`) is NOT decoded:
`parseVESCResponse` requires the LEN byte to be at least 50, so the
telemetry is left untouched and the voltage stays 0, not 20.0. -/
theorem payload29_not_decoded :
    (List.replicate 26 0 ++ [0, 200, 0]).length = 29 ∧
    (List.replicate 26 0 ++ [0, 200, 0]).getD 26 0 = 0 ∧
    (List.replicate 26 0 ++ [0, 200, 0]).getD 27 0 = 200 ∧
    payloadOf (encodeFrame (List.replicate 26 0 ++ [0, 200, 0])) =
      List.replicate 26 0 ++ [0, 200, 0] ∧
    parseVESCResponse 99 ⟨0, 0, 0⟩
      (encodeFrame (List.replicate 26 0 ++ [0, 200, 0])) = ⟨0, 0, 0⟩ ∧
    voltageOf ⟨0, 0, 0⟩ ≠ 20 := by
  refine ⟨by decide, by decide, by decide, by decide, by decide, ?_⟩
  norm_num [voltageOf]

/-- Claim C2 (amended): the decoder recognizes a "read values" response
when the packet's LEN byte is at least 50, its total length is at least
LEN + 5 and at least 31; on that shape it extracts voltage from full-packet
bytes `[29:31)` — payload bytes `[27:29)` — as a big-endian signed 16-bit
value divided by 10, and in particular a packet whose bytes `[29:31)` are
`0x00C8` decodes to voltage 20. -/
theorem values_frame_decoding (now : Nat) (t : Telem) (d : List Nat)
    (h : readValuesShape d) :
    parseVESCResponse now t d =
      { vescVoltageRaw := toInt16 (d.getD 29 0) (d.getD 30 0),
        vescFetTempRaw := toInt16 (d.getD 3 0) (d.getD 4 0),
        lastVoltageUpdate := now } ∧
    (d.getD 29 0 = 0 → d.getD 30 0 = 200 →
      voltageOf (parseVESCResponse now t d) = 20) := by
  refine ⟨parse_mutation now t d h, ?_⟩
  intro h29 h30
  have h200 : toInt16 0 200 = 200 := by decide
  rw [parse_mutation now t d h, h29, h30]
  simp only [voltageOf, h200]
  norm_num

/-- Claim C2 (amended) witness: a 50-byte-payload packet with full-packet
bytes 29 and 30 equal to `0x00` and `0xC8` decodes to voltage 20. -/
theorem values_frame_decoding_witness :
    voltageOf (parseVESCResponse 7 ⟨0, 0, 0⟩
      ([2, 50] ++ (List.replicate 27 0 ++ [0, 200] ++ List.replicate 21 7) ++
        [0, 0, 3])) = 20 :=
  (values_frame_decoding 7 ⟨0, 0, 0⟩ _ (by decide)).2 (by decide) (by decide)

/-- Claim C9: the decoder mutates no telemetry field on a heartbeat-ack
packet (payload length 1, byte `COMM_ALIVE = 0x1E`) or on any other packet
that does not have the "read values" shape; only the read-values path
writes, and on that path it sets `lastVoltageUpdate` to `now`
unconditionally — there is no range check on the decoded values. -/
theorem decoder_mutation_policy (now : Nat) (t : Telem) (d : List Nat) :
    (¬ readValuesShape d → parseVESCResponse now t d = t) ∧
    (readValuesShape d → (parseVESCResponse now t d).lastVoltageUpdate = now) := by
  constructor
  · exact parse_no_mutation now t d
  · intro h
    rw [parse_mutation now t d h]

/-- Claim C9 witness: the heartbeat-ack frame `sendVESCPacket 30` leaves
the telemetry untouched, and a 50-byte-payload frame stamps
`lastVoltageUpdate` with the decode time. -/
theorem decoder_mutation_policy_witness :
    parseVESCResponse 5 ⟨1, 2, 3⟩ (sendVESCPacket 30) = ⟨1, 2, 3⟩ ∧
    (parseVESCResponse 7 ⟨1, 2, 3⟩
      (encodeFrame (List.replicate 50 0))).lastVoltageUpdate = 7 :=
  ⟨(decoder_mutation_policy 5 ⟨1, 2, 3⟩ (sendVESCPacket 30)).1 (by decide),
   (decoder_mutation_policy 7 ⟨1, 2, 3⟩
      (encodeFrame (List.replicate 50 0))).2 (by decide)⟩

/-- Claim C6 counterexample: the LEN = 0 frame `[2, 0, 0, 0, 3]` is a valid
5-byte encoding (CRC of the empty payload is 0), but the scan loop only
runs once the buffer holds at least 6 bytes.  Fed alone it yields no frame;
with one leading garbage byte the buffer reaches 6 bytes and the frame IS
extracted — so garbage-prefixing does not yield "exactly the same" result
as the frame alone. -/
theorem len0_frame_asymmetry :
    encodeFrame ([] : List Nat) = [2, 0, 0, 0, 3] ∧
    (255 : Nat) ≠ VESC_PACKET_START ∧
    (processPackets ([255] ++ encodeFrame ([] : List Nat))).1 = [[2, 0, 0, 0, 3]] ∧
    (processPackets (encodeFrame ([] : List Nat))).1 = [] := by
  decide

/-- Claim C6 (amended): for every valid encoded frame with nonempty payload
(`LEN ≥ 1`, so the frame has at least 6 bytes) and every prefix of
non-START garbage bytes, feeding garbage ++ frame produces exactly the same
result as feeding the frame alone: the single frame, with the garbage
discarded and the buffer emptied. -/
theorem resync_garbage (payload g : List Nat)
    (h1 : 1 ≤ payload.length) (h2 : payload.length < 256)
    (hg : ∀ b ∈ g, b ≠ VESC_PACKET_START) :
    processPackets (g ++ encodeFrame payload) =
      processPackets (encodeFrame payload) ∧
    processPackets (encodeFrame payload) = ([encodeFrame payload], []) := by
  have hfr := processPackets_frame payload h1
  have hpk := processPackets_packet g payload [] payload.length
    ((crc16 payload >>> 8) &&& 0xFF) (crc16 payload &&& 0xFF) hg rfl h1
  rw [processPackets_stall [] (by simp)] at hpk
  refine ⟨?_, hfr⟩
  rw [hfr]
  simpa [encodeFrame] using hpk

/-- Claim C6 (amended) witness: two garbage bytes before the heartbeat
frame for payload `[30]`. -/
theorem resync_garbage_witness :
    processPackets ([255, 255] ++ encodeFrame [30]) =
      processPackets (encodeFrame [30]) ∧
    processPackets (encodeFrame [30]) = ([encodeFrame [30]], []) :=
  resync_garbage [30] [255, 255] (by decide) (by decide) (by decide)

/-- Claim C7 counterexample: `[[2, 0], [0, 0, 3]]` is a partition of the
valid LEN = 0 frame into nonempty chunks, but feeding the chunks yields no
frame at all — and neither does feeding the whole frame at once (5 bytes is
below the loop's 6-byte minimum).  No "single Frame" is yielded, so the
claim fails for this valid encoded frame. -/
theorem len0_fragmentation_no_frame :
    ([[2, 0], [0, 0, 3]] : List (List Nat)).flatten =
      encodeFrame ([] : List Nat) ∧
    (∀ c ∈ ([[2, 0], [0, 0, 3]] : List (List Nat)), c ≠ []) ∧
    (feedChunks [[2, 0], [0, 0, 3]]).1 = [] ∧
    (processPackets (encodeFrame ([] : List Nat))).1 = [] := by
  decide

/-- Claim C7 (amended): for every valid encoded frame with nonempty payload
(`LEN ≥ 1`) and every partition of its bytes into nonempty chunks, feeding
the chunks one call at a time (buffer carried over) yields in total exactly
the one frame — the same single frame that feeding all the bytes in one
call yields. -/
theorem fragmentation_invariance (payload : List Nat)
    (chunks : List (List Nat))
    (h1 : 1 ≤ payload.length) (h2 : payload.length < 256)
    (hne : ∀ c ∈ chunks, c ≠ [])
    (hflat : chunks.flatten = encodeFrame payload) :
    feedChunks chunks = ([encodeFrame payload], []) ∧
    processPackets (encodeFrame payload) = ([encodeFrame payload], []) := by
  have hch : chunks ≠ [] := by
    intro hcnil
    subst hcnil
    have hne' : encodeFrame payload ≠ [] := by simp [encodeFrame]
    exact hne' (by simpa using hflat.symm)
  have haux := feedChunks_aux payload payload.length
    ((crc16 payload >>> 8) &&& 0xFF) (crc16 payload &&& 0xFF) rfl h1
    chunks [] [] hne hch (by simpa [encodeFrame] using hflat)
  refine ⟨?_, processPackets_frame payload h1⟩
  simpa [feedChunks, encodeFrame] using haux

/-- Claim C7 (amended) witness: the frame for payload `[4]`, split into
three chunks, yields exactly that frame. -/
theorem fragmentation_invariance_witness :
    feedChunks [[2], [1, 4], [64, 132, 3]] = ([encodeFrame [4]], []) ∧
    processPackets (encodeFrame [4]) = ([encodeFrame [4]], []) :=
  fragmentation_invariance [4] [[2], [1, 4], [64, 132, 3]]
    (by decide) (by decide) (by decide) (by decide)

/-- Claim C3: with a connection established at time `T` (grace period
`CONNECTION_GRACE_PERIOD_MS`, stale timeout `VESC_DATA_STALE_TIMEOUT_MS`)
and no data received after `T`, the connected state is entered with
`isConnected = true`; staleness checks at any times up to and including
`T + G - 1` leave the state completely unchanged (it never leaves
Connected); and a staleness check at any time at or after `T + G + S + 1`
transitions to Reconnecting, clearing `isConnected` and setting
`lastReconnectAttempt` to the current time. -/
theorem grace_stale_boundary (T : Nat) :
    (stepEvent initLink (.connectResult true 0 T)).isConnected = true ∧
    (∀ ts : List Nat, (∀ u ∈ ts, u ≤ T + CONNECTION_GRACE_PERIOD_MS - 1) →
      (ts.map LinkEvent.staleCheck).foldl stepEvent
          (stepEvent initLink (.connectResult true 0 T)) =
        stepEvent initLink (.connectResult true 0 T)) ∧
    (∀ u, T + CONNECTION_GRACE_PERIOD_MS + VESC_DATA_STALE_TIMEOUT_MS + 1 ≤ u →
      (stepEvent (stepEvent initLink (.connectResult true 0 T))
          (.staleCheck u)).isReconnecting = true ∧
      (stepEvent (stepEvent initLink (.connectResult true 0 T))
          (.staleCheck u)).isConnected = false ∧
      (stepEvent (stepEvent initLink (.connectResult true 0 T))
          (.staleCheck u)).lastReconnectAttempt = u) := by
  have hs0 : stepEvent initLink (.connectResult true 0 T) =
      { isConnected := true, isReconnecting := false, lastReconnectAttempt := 0,
        connectionStartTime := T, lastVoltageUpdate := T,
        lastConnectedDeviceIndex := 0 } := by
    simp [stepEvent, initLink]
  have hstay : ∀ u, u ≤ T + CONNECTION_GRACE_PERIOD_MS - 1 →
      stepEvent (stepEvent initLink (.connectResult true 0 T)) (.staleCheck u) =
        stepEvent initLink (.connectResult true 0 T) := by
    intro u hu
    rw [hs0]
    simp only [stepEvent]
    rw [if_pos (show (!false && true) = true from rfl)]
    have hcond : ¬ (CONNECTION_GRACE_PERIOD_MS < u - T ∧
        VESC_DATA_STALE_TIMEOUT_MS < u - T) := by
      simp only [CONNECTION_GRACE_PERIOD_MS, VESC_DATA_STALE_TIMEOUT_MS] at hu ⊢
      omega
    rw [if_neg hcond]
  refine ⟨by rw [hs0], ?_, ?_⟩
  · intro ts
    induction ts with
    | nil => intro _; rfl
    | cons u ts ih =>
      intro hts
      simp only [List.map_cons, List.foldl_cons]
      rw [hstay u (hts u (by simp))]
      exact ih (fun v hv => hts v (by simp [hv]))
  · intro u hu
    rw [hs0]
    simp only [stepEvent]
    rw [if_pos (show (!false && true) = true from rfl)]
    have hcond : CONNECTION_GRACE_PERIOD_MS < u - T ∧
        VESC_DATA_STALE_TIMEOUT_MS < u - T := by
      simp only [CONNECTION_GRACE_PERIOD_MS, VESC_DATA_STALE_TIMEOUT_MS] at hu ⊢
      omega
    rw [if_pos hcond]
    exact ⟨rfl, rfl, rfl⟩

/-- Claim C3 witness: connection at `T = 1000`; checks at times 0 and
10999 (i.e. `T + G - 1`) leave the state unchanged, and the check at
16001 (`T + G + S + 1`) lands in Reconnecting. -/
theorem grace_stale_boundary_witness :
    (([0, 10999].map LinkEvent.staleCheck).foldl stepEvent
        (stepEvent initLink (.connectResult true 0 1000)) =
      stepEvent initLink (.connectResult true 0 1000)) ∧
    (stepEvent (stepEvent initLink (.connectResult true 0 1000))
        (.staleCheck 16001)).isReconnecting = true :=
  ⟨(grace_stale_boundary 1000).2.1 [0, 10999] (by decide),
   ((grace_stale_boundary 1000).2.2 16001 (by decide)).1⟩

/-- Claim C8 counterexample: connect at t = 1000, unexpected disconnect at
t = 2000 (entering Reconnecting with `lastReconnectAttempt = 2000`), then a
manual retry-now, which sets `lastReconnectAttempt = 0`.  At t = 2600 the
reconnecting branch makes NO attempt — `2600 - 0 > 5000` is false — and
the tick leaves the state untouched: the manual trigger is not immediate
while the clock has not yet passed `RECONNECT_INTERVAL_MS`. -/
theorem retry_now_not_immediate :
    (stepEvent (stepEvent (stepEvent initLink (.connectResult true 0 1000))
        (.disconnectCb 2000)) .retryNow).isReconnecting = true ∧
    (stepEvent (stepEvent (stepEvent initLink (.connectResult true 0 1000))
        (.disconnectCb 2000)) .retryNow).lastReconnectAttempt = 0 ∧
    tickAttempts (stepEvent (stepEvent (stepEvent initLink
        (.connectResult true 0 1000)) (.disconnectCb 2000)) .retryNow) 2600 = false ∧
    stepEvent (stepEvent (stepEvent (stepEvent initLink
        (.connectResult true 0 1000)) (.disconnectCb 2000)) .retryNow)
        (.reconnectTick 2600 true false) =
      stepEvent (stepEvent (stepEvent initLink
        (.connectResult true 0 1000)) (.disconnectCb 2000)) .retryNow := by
  decide

/-- Claim C8 (amended): in Reconnecting, a pass of the loop attempts a
reconnect exactly when more than `RECONNECT_INTERVAL_MS` has elapsed since
`lastReconnectAttempt` (`tickAttempts`); a failed attempt to a remembered
device stamps `lastReconnectAttempt` with the current time and stays in
Reconnecting; after an attempt at time `now`, no further attempt occurs at
any time up to `now + RECONNECT_INTERVAL_MS` (never more than one attempt
per interval); a pass that does not attempt leaves the state untouched;
and a manual retry-now resets `lastReconnectAttempt` to 0, so the next
pass attempts whenever the current time exceeds `RECONNECT_INTERVAL_MS`
(immediate except within the first interval after boot). -/
theorem reconnect_attempt_policy (s : LinkSt) (now u : Nat) :
    (tickAttempts s now = true →
      (stepEvent s (.reconnectTick now true false)).isReconnecting = true ∧
      (stepEvent s (.reconnectTick now true false)).lastReconnectAttempt = now ∧
      (stepEvent s (.reconnectTick now true false)).isConnected = s.isConnected) ∧
    (tickAttempts s now = true → u ≤ now + RECONNECT_INTERVAL_MS →
      tickAttempts (stepEvent s (.reconnectTick now true false)) u = false) ∧
    (tickAttempts s now = false →
      stepEvent s (.reconnectTick now true false) = s) ∧
    (s.isReconnecting = true → RECONNECT_INTERVAL_MS < u →
      tickAttempts (stepEvent s .retryNow) u = true) := by
  refine ⟨?_, ?_, ?_, ?_⟩
  · intro h
    have h1 : s.isReconnecting = true ∧
        RECONNECT_INTERVAL_MS < now - s.lastReconnectAttempt := by
      simpa [tickAttempts] using h
    simp [stepEvent, h1.1, h1.2]
  · intro h hu
    have h1 : s.isReconnecting = true ∧
        RECONNECT_INTERVAL_MS < now - s.lastReconnectAttempt := by
      simpa [tickAttempts] using h
    simp only [stepEvent, h1.1, if_true, if_pos h1.2]
    simp [tickAttempts, h1.1]
    simp only [RECONNECT_INTERVAL_MS] at hu ⊢
    omega
  · intro h
    by_cases hr : s.isReconnecting = true
    · have h2 : ¬ (RECONNECT_INTERVAL_MS < now - s.lastReconnectAttempt) := by
        simpa [tickAttempts, hr] using h
      simp [stepEvent, hr, h2]
    · simp [stepEvent, hr]
  · intro hr hu
    simp [stepEvent, tickAttempts, hr]
    exact hu

/-- Claim C8 (amended) witness: in Reconnecting with the last attempt at
2000, the pass at 8000 attempts (failed, stays Reconnecting, restamps the
timer), and no attempt happens at 12000 ≤ 8000 + 5000. -/
theorem reconnect_attempt_policy_witness :
    ((stepEvent ⟨false, true, 2000, 0, 0, 0⟩
        (.reconnectTick 8000 true false)).isReconnecting = true ∧
     (stepEvent ⟨false, true, 2000, 0, 0, 0⟩
        (.reconnectTick 8000 true false)).lastReconnectAttempt = 8000 ∧
     (stepEvent ⟨false, true, 2000, 0, 0, 0⟩
        (.reconnectTick 8000 true false)).isConnected =
       (⟨false, true, 2000, 0, 0, 0⟩ : LinkSt).isConnected) ∧
    tickAttempts (stepEvent ⟨false, true, 2000, 0, 0, 0⟩
        (.reconnectTick 8000 true false)) 12000 = false :=
  ⟨(reconnect_attempt_policy ⟨false, true, 2000, 0, 0, 0⟩ 8000 12000).1 (by decide),
   (reconnect_attempt_policy ⟨false, true, 2000, 0, 0, 0⟩ 8000 12000).2.1
     (by decide) (by decide)⟩

/-- Claim C10 (implicit invariant): starting from process start, after any
sequence of connection-lifecycle events — successful or failed connects,
unexpected-disconnect callbacks, staleness checks, reconnect passes,
manual cancel/retry, user disconnects — the flags `isConnected` and
`isReconnecting` are never both true: Connected and Reconnecting are
mutually exclusive. -/
theorem flags_mutually_exclusive (evs : List LinkEvent) :
    ((evs.foldl stepEvent initLink).isConnected &&
      (evs.foldl stepEvent initLink).isReconnecting) = false := by
  have key : ∀ s : LinkSt, (s.isConnected && s.isReconnecting) = false →
      ((evs.foldl stepEvent s).isConnected &&
        (evs.foldl stepEvent s).isReconnecting) = false := by
    induction evs with
    | nil => intro s hs; simpa using hs
    | cons e evs ih =>
      intro s hs
      simp only [List.foldl_cons]
      exact ih (stepEvent s e) (stepEvent_mutex s e hs)
  exact key initLink rfl
